/-
  Verification development for the Xenopets galaxy-map prototypes.

  The repository consists of several near-duplicate React screen components
  sharing the same 2D-geometry core: a toroidal (wrap-around) coordinate
  system, a bounded-circular drag boundary, proximity detection between the
  player position and points of interest, and wrap-around ghost rendering.

  This file shallowly embeds that core.  Numeric values manipulated only by
  field operations and comparisons are modelled by ℚ (exact, executable);
  values passing through sqrt / cos / sin / atan2 are modelled by ℝ, with
  JavaScript's atan2 rendered as the complex argument.  JSON.parse (a
  platform primitive) is modelled as an abstract fallible parser parameter.
-/
import Mathlib

namespace Xenopets

/-- A 2D point with exact rational coordinates. -/
structure Pt where
  x : ℚ
  y : ℚ
deriving Repr, DecidableEq

/-! ### Coordinate Space Model (toroidal variant, `part_002`)

`wrap` is the literal transcription of

    const wrap = (value, min, max) => {
      const range = max - min;
      if (range <= 0) return min;
      let result = value;
      while (result < min) result += range;
      while (result >= max) result -= range;
      return result;
    };

with each `while` loop rendered as a terminating recursion. -/

/-- The first `while` loop of `wrap`: add `range` until the value reaches `lo`.
The `0 < range` conjunct only guards termination; `wrap` calls it with a
positive range. -/
def wrapUp (lo range v : ℚ) : ℚ :=
  if 0 < range ∧ v < lo then wrapUp lo range (v + range) else v
termination_by (⌈(lo - v) / range⌉).toNat
decreasing_by
  rename_i h
  obtain ⟨hr, hv⟩ := h
  have hpos : (0:ℚ) < (lo - v) / range := div_pos (by linarith) hr
  have hceil : 0 < ⌈(lo - v) / range⌉ := Int.ceil_pos.mpr hpos
  have hstep : (lo - (v + range)) / range = (lo - v) / range - 1 := by
    field_simp
    ring
  have : ⌈(lo - (v + range)) / range⌉ = ⌈(lo - v) / range⌉ - 1 := by
    rw [hstep, Int.ceil_sub_one]
  omega

/-- The second `while` loop of `wrap`: subtract `range` while the value is
at least `hi`. -/
def wrapDown (hi range v : ℚ) : ℚ :=
  if 0 < range ∧ hi ≤ v then wrapDown hi range (v - range) else v
termination_by (⌊(v - hi) / range⌋ + 1).toNat
decreasing_by
  rename_i h
  obtain ⟨hr, hv⟩ := h
  have hnn : (0:ℚ) ≤ (v - hi) / range := div_nonneg (by linarith) hr.le
  have hfloor : 0 ≤ ⌊(v - hi) / range⌋ := Int.floor_nonneg.mpr hnn
  have hstep : (v - range - hi) / range = (v - hi) / range - 1 := by
    field_simp
    ring
  have : ⌊(v - range - hi) / range⌋ = ⌊(v - hi) / range⌋ - 1 := by
    rw [hstep, Int.floor_sub_one]
  omega

/-- `wrap(value, min, max)` from `part_002` lines 34-42. -/
def wrap (value lo hi : ℚ) : ℚ :=
  if hi - lo ≤ 0 then lo
  else wrapDown hi (hi - lo) (wrapUp lo (hi - lo) value)

/-- `getWrappedDelta(a, b, size)` from `part_002` lines 45-55, with the
source's local constants `delta = b - a` and `halfSize = size / 2` inlined. -/
def getWrappedDelta (a b size : ℚ) : ℚ :=
  if b - a > size / 2 then b - a - size
  else if b - a < -(size / 2) then b - a + size
  else b - a

/-- `WORLD_CONFIG.width` from `part_002`. -/
def worldWidth : ℚ := 5000
/-- `WORLD_CONFIG.height` from `part_002`. -/
def worldHeight : ℚ := 5000
/-- `WORLD_CONFIG.viewportSize` from `part_002`. -/
def viewportSize : ℚ := 1000

/-- Squared toroidal displacement; `toroidalDistance` is its square root. -/
def torDist2 (a b : Pt) (w h : ℚ) : ℚ :=
  getWrappedDelta a.x b.x w ^ 2 + getWrappedDelta a.y b.y h ^ 2

/-- `toroidalDistance(a, b, worldWidth, worldHeight)` from `part_002`
lines 58-67 (`Math.sqrt(dx*dx + dy*dy)` over the wrapped deltas). -/
noncomputable def toroidalDistance (a b : Pt) (w h : ℚ) : ℝ :=
  Real.sqrt ((torDist2 a b w h : ℚ) : ℝ)

/-! ### Basic facts about `wrap` -/

theorem wrapUp_ge (lo range v : ℚ) (hr : 0 < range) : lo ≤ wrapUp lo range v := by
  refine wrapUp.induct lo range (fun v => lo ≤ wrapUp lo range v) ?_ ?_ v
  · intro x h ih
    rw [wrapUp, if_pos h]
    exact ih
  · intro x h
    rw [wrapUp, if_neg h]
    push_neg at h
    exact h hr

theorem wrapUp_exists_k (lo range v : ℚ) :
    ∃ k : ℤ, wrapUp lo range v = v + k * range := by
  refine wrapUp.induct lo range
    (fun v => ∃ k : ℤ, wrapUp lo range v = v + k * range) ?_ ?_ v
  · intro x h ih
    obtain ⟨k, hk⟩ := ih
    exact ⟨k + 1, by rw [wrapUp, if_pos h, hk]; push_cast; ring⟩
  · intro x h
    exact ⟨0, by rw [wrapUp, if_neg h]; push_cast; ring⟩

theorem wrapDown_lt (hi range v : ℚ) (hr : 0 < range) :
    wrapDown hi range v < hi := by
  refine wrapDown.induct hi range (fun v => wrapDown hi range v < hi) ?_ ?_ v
  · intro x h ih
    rw [wrapDown, if_pos h]
    exact ih
  · intro x h
    rw [wrapDown, if_neg h]
    push_neg at h
    exact h hr

theorem wrapDown_ge (hi range v : ℚ) (_hr : 0 < range) :
    hi - range ≤ v → hi - range ≤ wrapDown hi range v := by
  refine wrapDown.induct hi range
    (fun v => hi - range ≤ v → hi - range ≤ wrapDown hi range v) ?_ ?_ v
  · intro x h ih _
    rw [wrapDown, if_pos h]
    exact ih (by linarith [h.2])
  · intro x h hx
    rw [wrapDown, if_neg h]
    exact hx

theorem wrapDown_exists_k (hi range v : ℚ) :
    ∃ k : ℤ, wrapDown hi range v = v + k * range := by
  refine wrapDown.induct hi range
    (fun v => ∃ k : ℤ, wrapDown hi range v = v + k * range) ?_ ?_ v
  · intro x h ih
    obtain ⟨k, hk⟩ := ih
    exact ⟨k - 1, by rw [wrapDown, if_pos h, hk]; push_cast; ring⟩
  · intro x h
    exact ⟨0, by rw [wrapDown, if_neg h]; push_cast; ring⟩

theorem wrap_mem (v lo hi : ℚ) (h : lo < hi) : wrap v lo hi ∈ Set.Ico lo hi := by
  have hr : (0:ℚ) < hi - lo := by linarith
  rw [wrap, if_neg (by linarith)]
  constructor
  · have h1 := wrapUp_ge lo (hi - lo) v hr
    have h2 := wrapDown_ge hi (hi - lo) (wrapUp lo (hi - lo) v) hr (by linarith)
    linarith
  · exact wrapDown_lt hi (hi - lo) _ hr

theorem wrap_exists_k (v lo hi : ℚ) (h : lo < hi) :
    ∃ k : ℤ, wrap v lo hi = v + k * (hi - lo) := by
  rw [wrap, if_neg (by linarith)]
  obtain ⟨k1, hk1⟩ := wrapUp_exists_k lo (hi - lo) v
  obtain ⟨k2, hk2⟩ := wrapDown_exists_k hi (hi - lo) (wrapUp lo (hi - lo) v)
  exact ⟨k1 + k2, by rw [hk2, hk1]; push_cast; ring⟩

/-- `wrap v lo hi` is the unique point of `[lo, hi)` congruent to `v`
modulo the range. -/
theorem wrap_eq_of_mem (v lo hi w : ℚ) (h : lo < hi) (hw : w ∈ Set.Ico lo hi)
    (k : ℤ) (hk : w = v + k * (hi - lo)) : wrap v lo hi = w := by
  have hr : (0:ℚ) < hi - lo := by linarith
  obtain ⟨k', hk'⟩ := wrap_exists_k v lo hi h
  have h1 := wrap_mem v lo hi h
  rw [Set.mem_Ico] at h1 hw
  have hdiff : wrap v lo hi - w = ((k' - k : ℤ) : ℚ) * (hi - lo) := by
    rw [hk', hk]; push_cast; ring
  have hb : |wrap v lo hi - w| < hi - lo := by
    rw [abs_lt]; constructor <;> linarith
  rw [hdiff, abs_mul, abs_of_pos hr, mul_lt_iff_lt_one_left hr] at hb
  have hz : k' - k = 0 := by
    have hcast : ((|k' - k| : ℤ) : ℚ) < 1 := by rw [Int.cast_abs]; exact hb
    have habs : |k' - k| < 1 := by exact_mod_cast hcast
    rw [abs_lt] at habs
    omega
  have : wrap v lo hi - w = 0 := by rw [hdiff, hz]; push_cast; ring
  linarith

theorem wrap_periodic (v lo hi : ℚ) (h : lo < hi) (k : ℤ) :
    wrap (v + k * (hi - lo)) lo hi = wrap v lo hi := by
  obtain ⟨k', hk'⟩ := wrap_exists_k (v + k * (hi - lo)) lo hi h
  refine (wrap_eq_of_mem v lo hi _ h (wrap_mem _ lo hi h) (k + k') ?_).symm
  rw [hk']; push_cast; ring

theorem wrap_degenerate (v lo hi : ℚ) (h : hi ≤ lo) : wrap v lo hi = lo := by
  rw [wrap, if_pos (by linarith)]

/-- C2: for `min < max`, `wrap(v, min, max)` lies in `[min, max)` and is
periodic with period `max - min`; for `max ≤ min` it returns `min`. -/
theorem wrap_contract (v lo hi : ℚ) :
    (lo < hi → wrap v lo hi ∈ Set.Ico lo hi ∧
      ∀ k : ℤ, wrap (v + k * (hi - lo)) lo hi = wrap v lo hi) ∧
    (hi ≤ lo → wrap v lo hi = lo) := by
  exact ⟨fun h => ⟨wrap_mem v lo hi h, fun k => wrap_periodic v lo hi h k⟩,
    fun h => wrap_degenerate v lo hi h⟩

/-- Witness for C2 at `v = 7`, `[0, 5)`, `k = 3`, and the degenerate
range `[5, 1)`. -/
theorem wrap_contract_witness :
    ((0:ℚ) < 5 ∧ wrap 7 0 5 ∈ Set.Ico (0:ℚ) 5 ∧
      wrap (7 + (3:ℤ) * ((5:ℚ) - 0)) 0 5 = wrap 7 0 5) ∧
    ((1:ℚ) ≤ 5 ∧ wrap 7 5 1 = 5) :=
  ⟨⟨by norm_num, ((wrap_contract 7 0 5).1 (by norm_num)).1,
      ((wrap_contract 7 0 5).1 (by norm_num)).2 3⟩,
    ⟨by norm_num, (wrap_contract 7 5 1).2 (by norm_num)⟩⟩

/-! ### Claims about `getWrappedDelta` and `toroidalDistance` -/

/-- C3 counterexample: for inputs outside one world period the folded delta
can exceed `size / 2` in magnitude — `getWrappedDelta(0, 15, 5) = 10`,
whose magnitude is not at most `5 / 2`.  The single add/subtract of `size`
folds the delta only once. -/
theorem getWrappedDelta_magnitude_counterexample :
    getWrappedDelta 0 15 5 = 10 ∧ ¬(|getWrappedDelta 0 15 5| ≤ 5 / 2) := by
  norm_num [getWrappedDelta]

/-- C3 (amended): for positive `size` the round-trip
`wrap(a + getWrappedDelta(a,b,size), 0, size) = wrap(b, 0, size)` holds for
all `a`, `b`; the magnitude bound `|getWrappedDelta(a,b,size)| ≤ size/2`
holds when `a` and `b` both lie in `[0, size)`. -/
theorem getWrappedDelta_props (a b size : ℚ) (hs : 0 < size) :
    wrap (a + getWrappedDelta a b size) 0 size = wrap b 0 size ∧
    (a ∈ Set.Ico 0 size → b ∈ Set.Ico 0 size →
      |getWrappedDelta a b size| ≤ size / 2) := by
  constructor
  · have hk : ∃ k : ℤ, a + getWrappedDelta a b size = b + k * (size - 0) := by
      unfold getWrappedDelta
      split_ifs
      · exact ⟨-1, by push_cast; ring⟩
      · exact ⟨1, by push_cast; ring⟩
      · exact ⟨0, by push_cast; ring⟩
    obtain ⟨k, hk⟩ := hk
    rw [hk]
    exact wrap_periodic b 0 size (by linarith) k
  · intro ha hb
    rw [Set.mem_Ico] at ha hb
    unfold getWrappedDelta
    split_ifs with h1 h2
    · rw [abs_le]; constructor <;> linarith
    · rw [abs_le]; constructor <;> linarith
    · push_neg at h1 h2
      rw [abs_le]; constructor <;> linarith

/-- Witness for C3 at `a = 0`, `b = 4`, `size = 5` (the delta folds to `-1`). -/
theorem getWrappedDelta_props_witness :
    (0:ℚ) < 5 ∧ (0:ℚ) ∈ Set.Ico (0:ℚ) 5 ∧ (4:ℚ) ∈ Set.Ico (0:ℚ) 5 ∧
    wrap (0 + getWrappedDelta 0 4 5) 0 5 = wrap 4 0 5 ∧
    |getWrappedDelta 0 4 5| ≤ 5 / 2 :=
  ⟨by norm_num, by simp, by rw [Set.mem_Ico]; norm_num,
    (getWrappedDelta_props 0 4 5 (by norm_num)).1,
    (getWrappedDelta_props 0 4 5 (by norm_num)).2 (by simp)
      (by rw [Set.mem_Ico]; norm_num)⟩

/-- C1 counterexample: with the world 5000×5000, a viewer at `(2500, 2500)`
and a POI at `(4999, 2500)`, `toroidalDistance` returns `2499`, not
(approximately) `1`: the direct delta `2499` does not exceed `size / 2`,
so nothing is folded across the seam. -/
theorem toroidalDistance_scenario_counterexample :
    toroidalDistance ⟨2500, 2500⟩ ⟨4999, 2500⟩ 5000 5000 = 2499 ∧
    (2499 : ℝ) ≠ 1 := by
  constructor
  · have h2 : torDist2 ⟨2500, 2500⟩ ⟨4999, 2500⟩ 5000 5000 = 2499 ^ 2 := by
      norm_num [torDist2, getWrappedDelta]
    rw [toroidalDistance, h2]
    push_cast
    exact Real.sqrt_sq (by norm_num)
  · norm_num

/-- C1 (amended): for the viewer at `(2500, 2500)` the distance to the POI
at `(4999, 2500)` is `2499` — the direct route, shorter than the seam route
of `2501` — while the short-across-the-seam behaviour shows for a viewer at
`(0, 2500)`, whose toroidal distance to the same POI is `1`, not `4999`. -/
theorem toroidalDistance_scenario_amended :
    toroidalDistance ⟨2500, 2500⟩ ⟨4999, 2500⟩ 5000 5000 = 2499 ∧
    toroidalDistance ⟨0, 2500⟩ ⟨4999, 2500⟩ 5000 5000 = 1 := by
  constructor
  · have h2 : torDist2 ⟨2500, 2500⟩ ⟨4999, 2500⟩ 5000 5000 = 2499 ^ 2 := by
      norm_num [torDist2, getWrappedDelta]
    rw [toroidalDistance, h2]
    push_cast
    exact Real.sqrt_sq (by norm_num)
  · have h2 : torDist2 ⟨0, 2500⟩ ⟨4999, 2500⟩ 5000 5000 = 1 := by
      norm_num [torDist2, getWrappedDelta]
    rw [toroidalDistance, h2]
    push_cast
    exact Real.sqrt_one

/-! ### Proximity & Interaction Resolver

`checkProximity` (GalaxyMap.tsx lines 213-231, and the toroidal variant in
`part_002` lines 361-381) scans `GALAXY_POINTS` keeping the closest point
whose distance is strictly below the threshold:

    GALAXY_POINTS.forEach((point) => {
      const distance = ...;
      if (distance < threshold && distance < closestDistance) {
        closest = point.id; closestDistance = distance;
      }
    });

The two loop variables `closest` (initially `null`) and `closestDistance`
(initially `Infinity`) are always updated together, so they are modelled as
one `Option (String × ℚ)` accumulator (`none` = `null`/`Infinity`; the
`distance < Infinity` conjunct is vacuous in that state).  JavaScript
compares `Math.sqrt` values; square root is strictly monotone on
nonnegative reals, so the fold compares squared distances against the
squared threshold — the bridge back to real distances is
`Real.sqrt_lt'` / `Real.sqrt_lt_sqrt_iff` in the theorems below. -/

/-- A point-of-interest record; the presentation-only fields (`name`,
`type`, `description`, `image`) play no role in the geometry and are
omitted. -/
structure MapPointData where
  id : String
  x : ℚ
  y : ℚ
deriving Repr, DecidableEq

/-- `GALAXY_POINTS` of GalaxyMap.tsx (percent coordinates). -/
def GALAXY_POINTS : List MapPointData :=
  [⟨"terra-nova", 40, 45⟩, ⟨"estacao-omega", 60, 35⟩,
   ⟨"nebulosa-crimson", 30, 65⟩, ⟨"campo-asteroides", 70, 55⟩,
   ⟨"mundo-gelado", 50, 25⟩]

/-- Squared Euclidean distance,
`Math.pow(a.x - b.x, 2) + Math.pow(a.y - b.y, 2)`. -/
def dist2 (a b : Pt) : ℚ := (a.x - b.x) ^ 2 + (a.y - b.y) ^ 2

/-- The Euclidean distance `Math.sqrt(...)` used by `checkProximity`. -/
noncomputable def distE (a b : Pt) : ℝ := Real.sqrt ((dist2 a b : ℚ) : ℝ)

/-- One iteration of the `forEach` loop of `checkProximity`. -/
def proxStep (d2f : MapPointData → ℚ) (t2 : ℚ)
    (acc : Option (String × ℚ)) (p : MapPointData) : Option (String × ℚ) :=
  match acc with
  | none => if d2f p < t2 then some (p.id, d2f p) else none
  | some c => if d2f p < t2 ∧ d2f p < c.2 then some (p.id, d2f p) else some c

/-- The whole `forEach` loop of `checkProximity`. -/
def proxFold (d2f : MapPointData → ℚ) (t2 : ℚ) (pts : List MapPointData) :
    Option (String × ℚ) :=
  pts.foldl (proxStep d2f t2) none

/-- `checkProximity` of GalaxyMap.tsx: Euclidean distance, threshold `8`
(so squared threshold `64`); returns the id stored into `nearbyPoint`. -/
def checkProximity (ship : Pt) (pts : List MapPointData) : Option String :=
  (proxFold (fun p => dist2 ship ⟨p.x, p.y⟩) 64 pts).map Prod.fst

/-- `checkProximity` of `part_002`: toroidal distance, threshold `200`
(squared threshold `40000`). -/
def checkProximityToroidal (ship : Pt) (pts : List MapPointData) :
    Option String :=
  (proxFold (fun p => torDist2 ship ⟨p.x, p.y⟩ worldWidth worldHeight)
    40000 pts).map Prod.fst

/-- Merge of an accumulator state with the result of folding a suffix from
the empty state; earlier candidates win ties because later entries replace
the accumulator only on strictly smaller distance. -/
def proxComb (a r : Option (String × ℚ)) : Option (String × ℚ) :=
  match a, r with
  | none, r => r
  | some c, none => some c
  | some c, some b => if b.2 < c.2 then some b else some c

theorem proxComb_step (d2f : MapPointData → ℚ) (t2 : ℚ)
    (acc X : Option (String × ℚ)) (p : MapPointData) :
    proxComb (proxStep d2f t2 acc p) X =
      proxComb acc (proxComb (proxStep d2f t2 none p) X) := by
  cases acc with
  | none => rfl
  | some c =>
    cases X with
    | none =>
      by_cases hp : d2f p < t2
      · by_cases hpc : d2f p < c.2
        · simp [proxStep, proxComb, hp, hpc]
        · simp [proxStep, proxComb, hp, hpc]
      · simp [proxStep, proxComb, hp]
    | some b =>
      by_cases hp : d2f p < t2
      · by_cases hpc : d2f p < c.2
        · by_cases hbp : b.2 < d2f p
          · simp [proxStep, proxComb, hp, hpc, hbp]
            rw [if_pos (by linarith : b.2 < c.2)]
          · simp [proxStep, proxComb, hp, hpc, hbp]
        · by_cases hbp : b.2 < d2f p
          · simp [proxStep, proxComb, hp, hpc, hbp]
          · simp [proxStep, proxComb, hp, hpc, hbp]
            push_neg at hpc hbp
            intro h
            exact absurd h (not_lt.mpr (by linarith))
      · simp [proxStep, proxComb, hp]

theorem foldl_proxStep_eq (d2f : MapPointData → ℚ) (t2 : ℚ) :
    ∀ (pts : List MapPointData) (acc : Option (String × ℚ)),
      pts.foldl (proxStep d2f t2) acc = proxComb acc (proxFold d2f t2 pts) := by
  intro pts
  induction pts with
  | nil => intro acc; cases acc <;> rfl
  | cons p tl ih =>
    intro acc
    have hcons : proxFold d2f t2 (p :: tl) =
        proxComb (proxStep d2f t2 none p) (proxFold d2f t2 tl) := by
      unfold proxFold
      rw [List.foldl_cons]
      exact ih _
    rw [List.foldl_cons, ih, hcons]
    exact proxComb_step d2f t2 acc (proxFold d2f t2 tl) p

theorem proxFold_cons (d2f : MapPointData → ℚ) (t2 : ℚ) (p : MapPointData)
    (tl : List MapPointData) :
    proxFold d2f t2 (p :: tl) =
      proxComb (proxStep d2f t2 none p) (proxFold d2f t2 tl) := by
  unfold proxFold
  rw [List.foldl_cons]
  exact foldl_proxStep_eq d2f t2 tl _

theorem proxFold_none_iff (d2f : MapPointData → ℚ) (t2 : ℚ)
    (pts : List MapPointData) :
    proxFold d2f t2 pts = none ↔ ∀ p ∈ pts, ¬ d2f p < t2 := by
  induction pts with
  | nil => simp [proxFold]
  | cons p tl ih =>
    rw [proxFold_cons]
    by_cases hp : d2f p < t2
    · simp only [proxStep, if_pos hp]
      constructor
      · intro h
        exfalso
        cases hT : proxFold d2f t2 tl with
        | none => rw [hT] at h; simp [proxComb] at h
        | some b =>
          rw [hT] at h
          simp only [proxComb] at h
          split_ifs at h
      · intro h
        exact absurd hp (h p (by simp))
    · simp only [proxStep, if_neg hp]
      have hid : proxComb none (proxFold d2f t2 tl) = proxFold d2f t2 tl := rfl
      rw [hid, ih]
      constructor
      · intro h x hx
        rcases List.mem_cons.mp hx with h1 | h2
        · rw [h1]; exact hp
        · exact h x h2
      · intro h x hx
        exact h x (List.mem_cons_of_mem p hx)

/-- The loop keeps the first point attaining the strict minimum of the
squared distances below the squared threshold. -/
theorem proxFold_some_spec (d2f : MapPointData → ℚ) (t2 : ℚ) :
    ∀ (pts : List MapPointData) (r : String × ℚ), proxFold d2f t2 pts = some r →
      ∃ pre q post, pts = pre ++ q :: post ∧ q.id = r.1 ∧ r.2 = d2f q ∧
        d2f q < t2 ∧
        (∀ x ∈ pts, d2f x < t2 → d2f q ≤ d2f x) ∧
        (∀ x ∈ pre, d2f x < t2 → d2f q < d2f x) := by
  intro pts
  induction pts with
  | nil => intro r h; simp [proxFold] at h
  | cons p tl ih =>
    intro r h
    rw [proxFold_cons] at h
    by_cases hp : d2f p < t2
    · rw [proxStep, if_pos hp] at h
      cases hT : proxFold d2f t2 tl with
      | none =>
        rw [hT] at h
        simp only [proxComb, Option.some.injEq] at h
        have hnone := (proxFold_none_iff d2f t2 tl).mp hT
        refine ⟨[], p, tl, by simp, ?_, ?_, hp, ?_, by simp⟩
        · rw [← h]
        · rw [← h]
        · intro x hx hxlt
          rcases List.mem_cons.mp hx with h1 | h2
          · rw [h1]
          · exact absurd hxlt (hnone x h2)
      | some b =>
        rw [hT] at h
        simp only [proxComb] at h
        obtain ⟨pre', q', post', hsplit, hid, hd, hlt, hmin, hstrict⟩ := ih b hT
        by_cases hbp : b.2 < d2f p
        · rw [if_pos hbp] at h
          obtain rfl : b = r := by injection h
          refine ⟨p :: pre', q', post', by rw [hsplit]; rfl, hid, hd, hlt, ?_, ?_⟩
          · intro x hx hxlt
            rcases List.mem_cons.mp hx with h1 | h2
            · rw [h1]; have := hd ▸ hbp; linarith
            · exact hmin x h2 hxlt
          · intro x hx hxlt
            rcases List.mem_cons.mp hx with h1 | h2
            · rw [h1]; have := hd ▸ hbp; linarith
            · exact hstrict x h2 hxlt
        · rw [if_neg hbp] at h
          have hpr : (p.id, d2f p) = r := by injection h
          cases hpr
          push_neg at hbp
          refine ⟨[], p, tl, by simp, rfl, rfl, hp, ?_, by simp⟩
          intro x hx hxlt
          rcases List.mem_cons.mp hx with h1 | h2
          · rw [h1]
          · have := hmin x h2 hxlt
            rw [hd] at hbp
            linarith
    · rw [proxStep, if_neg hp] at h
      have h2 : proxFold d2f t2 tl = some r := h
      obtain ⟨pre', q', post', hsplit, hid, hd, hlt, hmin, hstrict⟩ := ih r h2
      refine ⟨p :: pre', q', post', by rw [hsplit]; rfl, hid, hd, hlt, ?_, ?_⟩
      · intro x hx hxlt
        rcases List.mem_cons.mp hx with h1 | h2
        · rw [h1] at hxlt; exact absurd hxlt hp
        · exact hmin x h2 hxlt
      · intro x hx hxlt
        rcases List.mem_cons.mp hx with h1 | h2
        · rw [h1] at hxlt; exact absurd hxlt hp
        · exact hstrict x h2 hxlt

theorem dist2_nonneg (a b : Pt) : 0 ≤ dist2 a b := by
  unfold dist2; positivity

theorem torDist2_nonneg (a b : Pt) (w h : ℚ) : 0 ≤ torDist2 a b w h := by
  unfold torDist2; positivity

/-- Bridge between the squared-distance fold and real distances: the fold
with squared threshold `t ^ 2` realises strict-threshold first-minimum
selection on the `Math.sqrt` distances. -/
theorem proxFold_spec_sqrt (d2f : MapPointData → ℚ) (t : ℚ)
    (hnn : ∀ p, 0 ≤ d2f p) (ht : 0 < t) (pts : List MapPointData) :
    ((proxFold d2f (t ^ 2) pts).map Prod.fst = none ↔
      ∀ p ∈ pts, ¬ Real.sqrt ((d2f p : ℚ) : ℝ) < (t : ℝ)) ∧
    ∀ pid, (proxFold d2f (t ^ 2) pts).map Prod.fst = some pid →
      ∃ pre q post, pts = pre ++ q :: post ∧ q.id = pid ∧
        Real.sqrt ((d2f q : ℚ) : ℝ) < (t : ℝ) ∧
        (∀ x ∈ pts, Real.sqrt ((d2f x : ℚ) : ℝ) < (t : ℝ) →
          Real.sqrt ((d2f q : ℚ) : ℝ) ≤ Real.sqrt ((d2f x : ℚ) : ℝ)) ∧
        ∀ x ∈ pre, Real.sqrt ((d2f x : ℚ) : ℝ) < (t : ℝ) →
          Real.sqrt ((d2f q : ℚ) : ℝ) < Real.sqrt ((d2f x : ℚ) : ℝ) := by
  have hbr : ∀ p : MapPointData,
      (Real.sqrt ((d2f p : ℚ) : ℝ) < (t : ℝ)) ↔ d2f p < t ^ 2 := by
    intro p
    rw [Real.sqrt_lt' (by exact_mod_cast ht)]
    constructor
    · intro h; exact_mod_cast h
    · intro h; exact_mod_cast h
  have hle : ∀ p q : MapPointData,
      (Real.sqrt ((d2f p : ℚ) : ℝ) ≤ Real.sqrt ((d2f q : ℚ) : ℝ)) ↔
        d2f p ≤ d2f q := by
    intro p q
    rw [Real.sqrt_le_sqrt_iff (by exact_mod_cast hnn q)]
    exact ⟨fun h => by exact_mod_cast h, fun h => by exact_mod_cast h⟩
  have hltq : ∀ p q : MapPointData,
      (Real.sqrt ((d2f p : ℚ) : ℝ) < Real.sqrt ((d2f q : ℚ) : ℝ)) ↔
        d2f p < d2f q := by
    intro p q
    rw [Real.sqrt_lt_sqrt_iff (by exact_mod_cast hnn p)]
    exact ⟨fun h => by exact_mod_cast h, fun h => by exact_mod_cast h⟩
  constructor
  · rw [Option.map_eq_none']
    rw [proxFold_none_iff]
    constructor
    · intro h p hp
      rw [hbr]
      exact h p hp
    · intro h p hp
      exact (hbr p).not.mp (h p hp)
  · intro pid hpid
    rw [Option.map_eq_some'] at hpid
    obtain ⟨a, ha, rfl⟩ := hpid
    obtain ⟨pre, q, post, hsplit, hid, _hd, hlt, hmin, hstrict⟩ :=
      proxFold_some_spec d2f (t ^ 2) pts a ha
    refine ⟨pre, q, post, hsplit, hid, (hbr q).mpr hlt, ?_, ?_⟩
    · intro x hx hxlt
      exact (hle q x).mpr (hmin x hx ((hbr x).mp hxlt))
    · intro x hx hxlt
      exact (hltq q x).mpr (hstrict x hx ((hbr x).mp hxlt))

/-- C10: `checkProximity` (Euclidean, threshold `8`) and its toroidal
counterpart from `part_002` (threshold `200`) mark at most one POI (the
result is an `Option`): `none` exactly when no POI is strictly within the
threshold — a POI at distance exactly the threshold is never marked — and
when `some id` is returned, `id` belongs to the first list entry attaining
the minimal distance among those strictly below the threshold, so on an
equal-minimal-distance tie the POI occurring earlier in `GALAXY_POINTS`
wins. -/
theorem checkProximity_spec (ship : Pt) (pts : List MapPointData) :
    (checkProximity ship pts = none ↔
      ∀ p ∈ pts, ¬ distE ship ⟨p.x, p.y⟩ < 8) ∧
    (∀ pid, checkProximity ship pts = some pid →
      ∃ pre q post, pts = pre ++ q :: post ∧ q.id = pid ∧
        distE ship ⟨q.x, q.y⟩ < 8 ∧
        (∀ x ∈ pts, distE ship ⟨x.x, x.y⟩ < 8 →
          distE ship ⟨q.x, q.y⟩ ≤ distE ship ⟨x.x, x.y⟩) ∧
        ∀ x ∈ pre, distE ship ⟨x.x, x.y⟩ < 8 →
          distE ship ⟨q.x, q.y⟩ < distE ship ⟨x.x, x.y⟩) ∧
    (checkProximityToroidal ship pts = none ↔
      ∀ p ∈ pts, ¬ toroidalDistance ship ⟨p.x, p.y⟩ worldWidth worldHeight < 200) ∧
    ∀ pid, checkProximityToroidal ship pts = some pid →
      ∃ pre q post, pts = pre ++ q :: post ∧ q.id = pid ∧
        toroidalDistance ship ⟨q.x, q.y⟩ worldWidth worldHeight < 200 ∧
        (∀ x ∈ pts, toroidalDistance ship ⟨x.x, x.y⟩ worldWidth worldHeight < 200 →
          toroidalDistance ship ⟨q.x, q.y⟩ worldWidth worldHeight ≤
            toroidalDistance ship ⟨x.x, x.y⟩ worldWidth worldHeight) ∧
        ∀ x ∈ pre, toroidalDistance ship ⟨x.x, x.y⟩ worldWidth worldHeight < 200 →
          toroidalDistance ship ⟨q.x, q.y⟩ worldWidth worldHeight <
            toroidalDistance ship ⟨x.x, x.y⟩ worldWidth worldHeight := by
  have e1 : (64 : ℚ) = 8 ^ 2 := by norm_num
  have e2 : (40000 : ℚ) = 200 ^ 2 := by norm_num
  have c8 : ((8 : ℚ) : ℝ) = (8 : ℝ) := by norm_num
  have c200 : ((200 : ℚ) : ℝ) = (200 : ℝ) := by norm_num
  have h1 := proxFold_spec_sqrt (fun p => dist2 ship ⟨p.x, p.y⟩) 8
    (fun p => dist2_nonneg _ _) (by norm_num) pts
  have h2 := proxFold_spec_sqrt
    (fun p => torDist2 ship ⟨p.x, p.y⟩ worldWidth worldHeight) 200
    (fun p => torDist2_nonneg _ _ _ _) (by norm_num) pts
  rw [c8] at h1
  rw [c200] at h2
  exact ⟨by simpa only [checkProximity, e1, distE] using h1.1,
    by simpa only [checkProximity, e1, distE] using h1.2,
    by simpa only [checkProximityToroidal, e2, toroidalDistance] using h2.1,
    by simpa only [checkProximityToroidal, e2, toroidalDistance] using h2.2⟩

/-- Witness for C10: with the ship exactly on Terra Nova, `checkProximity`
over `GALAXY_POINTS` returns `terra-nova`, and the characterization holds
there. -/
theorem checkProximity_spec_witness :
    checkProximity ⟨40, 45⟩ GALAXY_POINTS = some "terra-nova" ∧
    ∃ pre q post, GALAXY_POINTS = pre ++ q :: post ∧ q.id = "terra-nova" ∧
      distE ⟨40, 45⟩ ⟨q.x, q.y⟩ < 8 ∧
      (∀ x ∈ GALAXY_POINTS, distE ⟨40, 45⟩ ⟨x.x, x.y⟩ < 8 →
        distE ⟨40, 45⟩ ⟨q.x, q.y⟩ ≤ distE ⟨40, 45⟩ ⟨x.x, x.y⟩) ∧
      ∀ x ∈ pre, distE ⟨40, 45⟩ ⟨x.x, x.y⟩ < 8 →
        distE ⟨40, 45⟩ ⟨q.x, q.y⟩ < distE ⟨40, 45⟩ ⟨x.x, x.y⟩ :=
  ⟨by norm_num [checkProximity, proxFold, GALAXY_POINTS, List.foldl, proxStep,
      dist2],
    (checkProximity_spec ⟨40, 45⟩ GALAXY_POINTS).2.1 "terra-nova"
      (by norm_num [checkProximity, proxFold, GALAXY_POINTS, List.foldl,
        proxStep, dist2])⟩


/-! ### Render Projection (`part_002`)

`worldToScreen` positions everything relative to the viewer through the
wrapped delta, and `getWrappedPositions` (lines 86-207) pushes the main
screen position plus conditionally-culled edge and corner copies; the
component then renders only the candidates passing a second visibility
filter with margin `50` (lines 630-639). -/

/-- A candidate screen position tagged with the copy identifier used as the
React key suffix. -/
structure ScreenPos where
  x : ℚ
  y : ℚ
  id : String
deriving Repr, DecidableEq

/-- `worldToScreen(worldPos, playerPos, screenCenter, scale)` from
`part_002` lines 70-83. -/
def worldToScreen (worldPos playerPos screenCenter : Pt) (scale : ℚ) : Pt :=
  ⟨screenCenter.x + getWrappedDelta playerPos.x worldPos.x worldWidth * scale,
   screenCenter.y + getWrappedDelta playerPos.y worldPos.y worldHeight * scale⟩

/-- `getWrappedPositions` from `part_002` lines 86-207 (margin `100`); the
source's local `mainPos` and per-copy constants are inlined. -/
def getWrappedPositions (worldPos playerPos screenCenter : Pt)
    (scale screenW screenH : ℚ) : List ScreenPos :=
  ⟨(worldToScreen worldPos playerPos screenCenter scale).x,
   (worldToScreen worldPos playerPos screenCenter scale).y, "main"⟩ ::
  ((if (worldToScreen worldPos playerPos screenCenter scale).x < 100 then
      if (worldToScreen ⟨worldPos.x + worldWidth, worldPos.y⟩ playerPos
            screenCenter scale).x ≤ screenW + 100 then
        [⟨(worldToScreen ⟨worldPos.x + worldWidth, worldPos.y⟩ playerPos
             screenCenter scale).x,
          (worldToScreen ⟨worldPos.x + worldWidth, worldPos.y⟩ playerPos
             screenCenter scale).y, "right"⟩]
      else []
    else []) ++
   (if (worldToScreen worldPos playerPos screenCenter scale).x > screenW - 100 then
      if (worldToScreen ⟨worldPos.x - worldWidth, worldPos.y⟩ playerPos
            screenCenter scale).x ≥ -100 then
        [⟨(worldToScreen ⟨worldPos.x - worldWidth, worldPos.y⟩ playerPos
             screenCenter scale).x,
          (worldToScreen ⟨worldPos.x - worldWidth, worldPos.y⟩ playerPos
             screenCenter scale).y, "left"⟩]
      else []
    else []) ++
   (if (worldToScreen worldPos playerPos screenCenter scale).y < 100 then
      if (worldToScreen ⟨worldPos.x, worldPos.y + worldHeight⟩ playerPos
            screenCenter scale).y ≤ screenH + 100 then
        [⟨(worldToScreen ⟨worldPos.x, worldPos.y + worldHeight⟩ playerPos
             screenCenter scale).x,
          (worldToScreen ⟨worldPos.x, worldPos.y + worldHeight⟩ playerPos
             screenCenter scale).y, "bottom"⟩]
      else []
    else []) ++
   (if (worldToScreen worldPos playerPos screenCenter scale).y > screenH - 100 then
      if (worldToScreen ⟨worldPos.x, worldPos.y - worldHeight⟩ playerPos
            screenCenter scale).y ≥ -100 then
        [⟨(worldToScreen ⟨worldPos.x, worldPos.y - worldHeight⟩ playerPos
             screenCenter scale).x,
          (worldToScreen ⟨worldPos.x, worldPos.y - worldHeight⟩ playerPos
             screenCenter scale).y, "top"⟩]
      else []
    else []) ++
   (if (worldToScreen worldPos playerPos screenCenter scale).x < 100 ∧
       (worldToScreen worldPos playerPos screenCenter scale).y < 100 then
      [⟨(worldToScreen ⟨worldPos.x + worldWidth, worldPos.y + worldHeight⟩
           playerPos screenCenter scale).x,
        (worldToScreen ⟨worldPos.x + worldWidth, worldPos.y + worldHeight⟩
           playerPos screenCenter scale).y, "corner-br"⟩]
    else []) ++
   (if (worldToScreen worldPos playerPos screenCenter scale).x > screenW - 100 ∧
       (worldToScreen worldPos playerPos screenCenter scale).y < 100 then
      [⟨(worldToScreen ⟨worldPos.x - worldWidth, worldPos.y + worldHeight⟩
           playerPos screenCenter scale).x,
        (worldToScreen ⟨worldPos.x - worldWidth, worldPos.y + worldHeight⟩
           playerPos screenCenter scale).y, "corner-bl"⟩]
    else []) ++
   (if (worldToScreen worldPos playerPos screenCenter scale).x < 100 ∧
       (worldToScreen worldPos playerPos screenCenter scale).y > screenH - 100 then
      [⟨(worldToScreen ⟨worldPos.x + worldWidth, worldPos.y - worldHeight⟩
           playerPos screenCenter scale).x,
        (worldToScreen ⟨worldPos.x + worldWidth, worldPos.y - worldHeight⟩
           playerPos screenCenter scale).y, "corner-tr"⟩]
    else []) ++
   (if (worldToScreen worldPos playerPos screenCenter scale).x > screenW - 100 ∧
       (worldToScreen worldPos playerPos screenCenter scale).y > screenH - 100 then
      [⟨(worldToScreen ⟨worldPos.x - worldWidth, worldPos.y - worldHeight⟩
           playerPos screenCenter scale).x,
        (worldToScreen ⟨worldPos.x - worldWidth, worldPos.y - worldHeight⟩
           playerPos screenCenter scale).y, "corner-tl"⟩]
    else []))

/-- The render-time visibility filter of `part_002` lines 630-639
(margin `50`): only candidates inside the band are turned into widgets. -/
def renderedPositions (worldPos playerPos screenCenter : Pt)
    (scale screenW screenH : ℚ) : List ScreenPos :=
  (getWrappedPositions worldPos playerPos screenCenter scale screenW
      screenH).filter
    (fun pos => decide (-50 ≤ pos.x) && decide (pos.x ≤ screenW + 50) &&
      decide (-50 ≤ pos.y) && decide (pos.y ≤ screenH + 50))

/-- Rendering a POI (lines 641-656): every visible copy gets an `onClick`
closure carrying the same `point.id` to `handlePointClick`. -/
def renderPoint (point : MapPointData) (playerPos screenCenter : Pt)
    (scale screenW screenH : ℚ) : List (ScreenPos × String) :=
  (renderedPositions ⟨point.x, point.y⟩ playerPos screenCenter scale screenW
      screenH).map (fun pos => (pos, point.id))

/-- C9 counterexample: (a) the generation scheme has 8 translated copies
(2 per axis and 4 corners), not 7 — with a degenerate viewport all 8 fire
at once, giving 9 returned candidates; (b) the per-copy culling checks only
one axis and one side, so `getWrappedPositions` can return a candidate far
outside the `[-margin, viewportSize + margin]` band: for a viewer at
`(2500,2500)`, POI at `(2050,4000)`, screen center `(500,500)`, scale `1`
and a 1000×1000 viewport, the returned `right` copy sits at `y = 2000`,
outside `[-100, 1100]`. -/
theorem getWrappedPositions_counterexample :
    (getWrappedPositions ⟨2500, 2500⟩ ⟨2500, 2500⟩ ⟨0, 0⟩ 1 0 0).length = 9 ∧
    (⟨50, 2000, "right"⟩ : ScreenPos) ∈
      getWrappedPositions ⟨2050, 4000⟩ ⟨2500, 2500⟩ ⟨500, 500⟩ 1 1000 1000 ∧
    ¬((2000 : ℚ) ≤ 1000 + 100) := by
  refine ⟨?_, ?_, by norm_num⟩
  · norm_num [getWrappedPositions, worldToScreen, getWrappedDelta,
      worldWidth, worldHeight]
  · norm_num [getWrappedPositions, worldToScreen, getWrappedDelta,
      worldWidth, worldHeight]

theorem length_ite_nested_le (c1 c2 : Prop) [Decidable c1] [Decidable c2]
    (a : ScreenPos) :
    (if c1 then if c2 then [a] else [] else []).length ≤ 1 := by
  split
  · split <;> simp
  · simp

theorem length_ite_le (c : Prop) [Decidable c] (a : ScreenPos) :
    (if c then [a] else []).length ≤ 1 := by
  split <;> simp

/-- C9 (amended): `getWrappedPositions` returns the primary position plus
up to 8 additional candidates (2 per axis and 4 corners; edge copies are
culled only on their translated axis and side, corner copies are pushed
unchecked); the render-time filter with margin `50` guarantees every
RENDERED candidate lies within `[-50, viewportSize + 50]` on both axes;
and every rendered copy's click closure carries the same POI identifier. -/
theorem getWrappedPositions_amended (worldPos playerPos screenCenter : Pt)
    (scale screenW screenH : ℚ) (point : MapPointData) :
    (getWrappedPositions worldPos playerPos screenCenter scale screenW
        screenH).length ≤ 9 ∧
    (∀ c ∈ renderedPositions worldPos playerPos screenCenter scale screenW
        screenH,
      -50 ≤ c.x ∧ c.x ≤ screenW + 50 ∧ -50 ≤ c.y ∧ c.y ≤ screenH + 50) ∧
    ∀ e ∈ renderPoint point playerPos screenCenter scale screenW screenH,
      e.2 = point.id := by
  refine ⟨?_, ?_, ?_⟩
  · rw [getWrappedPositions, List.length_cons]
    refine Nat.succ_le_succ ?_
    simp only [List.length_append]
    have h8 : (8:ℕ) = 1 + 1 + 1 + 1 + 1 + 1 + 1 + 1 := by norm_num
    rw [h8]
    repeat' apply Nat.add_le_add
    all_goals first
      | apply length_ite_nested_le
      | apply length_ite_le
  · intro c hc
    unfold renderedPositions at hc
    rw [List.mem_filter] at hc
    obtain ⟨-, hcond⟩ := hc
    simp only [Bool.and_eq_true, decide_eq_true_eq] at hcond
    exact ⟨hcond.1.1.1, hcond.1.1.2, hcond.1.2, hcond.2⟩
  · intro e he
    unfold renderPoint at he
    rw [List.mem_map] at he
    obtain ⟨a, -, rfl⟩ := he
    rfl

/-- Witness for C9: a POI rendered at the screen centre (single rendered
copy, inside the band, clicking with its own id). -/
theorem getWrappedPositions_amended_witness :
    (getWrappedPositions ⟨2500, 2500⟩ ⟨2500, 2500⟩ ⟨500, 500⟩ 1 1000
        1000).length ≤ 9 ∧
    ((⟨500, 500, "main"⟩ : ScreenPos) ∈
        renderedPositions ⟨2500, 2500⟩ ⟨2500, 2500⟩ ⟨500, 500⟩ 1 1000 1000 ∧
      -50 ≤ (500:ℚ) ∧ (500:ℚ) ≤ 1000 + 50 ∧ -50 ≤ (500:ℚ) ∧
        (500:ℚ) ≤ 1000 + 50) ∧
    (((⟨500, 500, "main"⟩ : ScreenPos), "terra-nova") ∈
        renderPoint ⟨"terra-nova", 2500, 2500⟩ ⟨2500, 2500⟩ ⟨500, 500⟩ 1 1000
          1000 ∧
      ((⟨500, 500, "main"⟩ : ScreenPos), "terra-nova").2 = "terra-nova") := by
  have hmem : (⟨500, 500, "main"⟩ : ScreenPos) ∈
      renderedPositions ⟨2500, 2500⟩ ⟨2500, 2500⟩ ⟨500, 500⟩ 1 1000 1000 := by
    norm_num [renderedPositions, getWrappedPositions, worldToScreen,
      getWrappedDelta, worldWidth, worldHeight, List.filter]
  have hmem2 : (((⟨500, 500, "main"⟩ : ScreenPos), "terra-nova") :
      ScreenPos × String) ∈
      renderPoint ⟨"terra-nova", 2500, 2500⟩ ⟨2500, 2500⟩ ⟨500, 500⟩ 1 1000
        1000 := by
    norm_num [renderPoint, renderedPositions, getWrappedPositions,
      worldToScreen, getWrappedDelta, worldWidth, worldHeight, List.filter]
  have h := getWrappedPositions_amended ⟨2500, 2500⟩ ⟨2500, 2500⟩ ⟨500, 500⟩
    1 1000 1000 ⟨"terra-nova", 2500, 2500⟩
  refine ⟨h.1, ⟨hmem, ?_⟩, hmem2, h.2.2 _ hmem2⟩
  have hb := h.2.1 _ hmem
  exact ⟨hb.1, hb.2.1, hb.2.2.1, hb.2.2.2⟩

/-! ### Bounded-circular variants (GalaxyMap.tsx and `part_003`)

These variants keep the map offset `(mapX, mapY)` inside a circle of
radius `R` around the origin.  `Math.atan2(y, x)` is modelled as the
argument of the complex number `x + y·i` (same convention and range), and
`Math.sqrt(x*x + y*y)` as `dist0`. -/

/-- `Math.sqrt(x * x + y * y)`, the distance from the origin. -/
noncomputable def dist0 (x y : ℝ) : ℝ := Real.sqrt (x ^ 2 + y ^ 2)

/-- `Math.atan2(y, x)`, as the complex argument of `x + y·i`. -/
noncomputable def atan2 (y x : ℝ) : ℝ := Complex.arg ⟨x, y⟩

/-- The recurring clamp
`(Math.cos(angle) * radius, Math.sin(angle) * radius)` with
`angle = Math.atan2(y, x)` (GalaxyMap.tsx lines 253-255 and 345-348,
`part_003` lines 407-410). -/
noncomputable def clampToCircle (x y R : ℝ) : ℝ × ℝ :=
  (Real.cos (atan2 y x) * R, Real.sin (atan2 y x) * R)

/-- The unit tangent `(-sin(currentAngle), cos(currentAngle))` at the
current position (GalaxyMap.tsx lines 326-328). -/
noncomputable def tangentAt (x y : ℝ) : ℝ × ℝ :=
  (-Real.sin (atan2 y x), Real.cos (atan2 y x))

/-- The tangential-only move of the slide branch (GalaxyMap.tsx lines
330-335): the current position plus `tangentialComponent * tangent`, where
`tangentialComponent = deltaX * tangentX + deltaY * tangentY`. -/
noncomputable def slideTangential (curX curY dX dY : ℝ) : ℝ × ℝ :=
  (curX + (dX * (tangentAt curX curY).1 + dY * (tangentAt curX curY).2) *
      (tangentAt curX curY).1,
   curY + (dX * (tangentAt curX curY).1 + dY * (tangentAt curX curY).2) *
      (tangentAt curX curY).2)

/-- `handleDrag` of GalaxyMap.tsx (lines 299-363), position part: attempted
position `cur + delta`; outside the circle, slide tangentially when the
current position is within `3` of the border (`currentDistance >= radius - 3`),
re-clamping if needed; otherwise clamp the attempted position radially. -/
noncomputable def resolveDrag (curX curY dX dY R : ℝ) : ℝ × ℝ :=
  if dist0 (curX + dX) (curY + dY) > R then
    if dist0 curX curY ≥ R - 3 then
      if dist0 (slideTangential curX curY dX dY).1
           (slideTangential curX curY dX dY).2 > R then
        clampToCircle (slideTangential curX curY dX dY).1
          (slideTangential curX curY dX dY).2 R
      else slideTangential curX curY dX dY
    else clampToCircle (curX + dX) (curY + dY) R
  else (curX + dX, curY + dY)

/-- `handleDrag` of `part_003` (lines 384-433), position part: clamp the
attempted position to the circle edge whenever it leaves the circle. -/
noncomputable def resolveDragP3 (curX curY dX dY radius : ℝ) : ℝ × ℝ :=
  if dist0 (curX + dX) (curY + dY) > radius then
    clampToCircle (curX + dX) (curY + dY) radius
  else (curX + dX, curY + dY)

/-- `validatePosition` of GalaxyMap.tsx (lines 246-263), position part:
radially clamp the current position whenever it is outside the circle. -/
noncomputable def validatePosition (x y R : ℝ) : ℝ × ℝ :=
  if dist0 x y > R then clampToCircle x y R else (x, y)

/-- The edge-sliding boundary response in the spec's words (§4.1):
decompose the attempted delta into a radial and a tangential component via
the unit tangent at the current angle, apply ONLY the tangential component,
then re-clamp.  Compared against `resolveDrag` for claim C5. -/
noncomputable def slideSpecResponse (curX curY dX dY R : ℝ) : ℝ × ℝ :=
  if dist0 (slideTangential curX curY dX dY).1
       (slideTangential curX curY dX dY).2 > R then
    clampToCircle (slideTangential curX curY dX dY).1
      (slideTangential curX curY dX dY).2 R
  else slideTangential curX curY dX dY

theorem dist0_zero : dist0 0 0 = 0 := by
  simp [dist0]

theorem dist0_nonneg (x y : ℝ) : 0 ≤ dist0 x y := Real.sqrt_nonneg _

/-- Positions produced by `clampToCircle` sit exactly on the radius-`R`
circle (for `0 ≤ R`). -/
theorem clampToCircle_dist (x y R : ℝ) (hR : 0 ≤ R) :
    dist0 (clampToCircle x y R).1 (clampToCircle x y R).2 = R := by
  unfold clampToCircle dist0
  have hsq : (Real.cos (atan2 y x) * R) ^ 2 + (Real.sin (atan2 y x) * R) ^ 2
      = R ^ 2 := by
    have hpyth := Real.cos_sq_add_sin_sq (atan2 y x)
    nlinarith [hpyth]
  rw [hsq]
  exact Real.sqrt_sq hR

/-- For a nonzero input, `clampToCircle` is the radial projection: the
positive rescaling of `(x, y)` by `R / dist0 x y` — in particular it keeps
the angle of `(x, y)`. -/
theorem clampToCircle_eq_scale (x y R : ℝ) (h : dist0 x y ≠ 0) :
    clampToCircle x y R = (R * x / dist0 x y, R * y / dist0 x y) := by
  have hz : (⟨x, y⟩ : ℂ) ≠ 0 := by
    intro hc
    apply h
    have hx : x = 0 := by
      have := congrArg Complex.re hc
      simpa using this
    have hy : y = 0 := by
      have := congrArg Complex.im hc
      simpa using this
    rw [hx, hy]
    exact dist0_zero
  have habs : Complex.abs ⟨x, y⟩ = dist0 x y := by
    rw [Complex.abs_apply, Complex.normSq_mk, dist0]
    ring_nf
  unfold clampToCircle atan2
  rw [Complex.cos_arg hz, Complex.sin_arg, habs]
  have hre : (⟨x, y⟩ : ℂ).re = x := rfl
  have him : (⟨x, y⟩ : ℂ).im = y := rfl
  rw [hre, him, Prod.mk.injEq]
  constructor <;> ring

/-- All three branches of `resolveDrag` land inside the circle (`0 ≤ R`). -/
theorem resolveDrag_dist_le (curX curY dX dY R : ℝ) (hR : 0 ≤ R) :
    dist0 (resolveDrag curX curY dX dY R).1
      (resolveDrag curX curY dX dY R).2 ≤ R := by
  unfold resolveDrag
  split_ifs with h1 h2 h3
  · rw [clampToCircle_dist _ _ _ hR]
  · push_neg at h3
    exact h3
  · rw [clampToCircle_dist _ _ _ hR]
  · push_neg at h1
    exact h1

theorem resolveDragP3_dist_le (curX curY dX dY R : ℝ) (hR : 0 ≤ R) :
    dist0 (resolveDragP3 curX curY dX dY R).1
      (resolveDragP3 curX curY dX dY R).2 ≤ R := by
  unfold resolveDragP3
  split_ifs with h1
  · rw [clampToCircle_dist _ _ _ hR]
  · push_neg at h1
    exact h1

theorem validatePosition_dist_le (x y R : ℝ) (hR : 0 ≤ R) :
    dist0 (validatePosition x y R).1 (validatePosition x y R).2 ≤ R := by
  unfold validatePosition
  split_ifs with h1
  · rw [clampToCircle_dist _ _ _ hR]
  · push_neg at h1
    exact h1

/-- C4 counterexample: in the GalaxyMap.tsx variant the border-band slide
branch does NOT resolve to the circle at the attempted angle: with
`R = 200`, current position `(199, 0)` (inside the band, distance
`199 ≥ 197`) and delta `(5, 1)`, the attempted position `(204, 1)` is
beyond the circle, yet the resolved position is `(199, 1)`, whose distance
`√39602 < 200` is not `200`. -/
theorem resolveDrag_offcircle_counterexample :
    resolveDrag 199 0 5 1 200 = (199, 1) ∧ dist0 199 1 ≠ 200 := by
  have harg : atan2 0 199 = 0 := by
    unfold atan2
    exact Complex.arg_ofReal_of_nonneg (by norm_num)
  have htan : tangentAt 199 0 = (0, 1) := by
    unfold tangentAt
    rw [harg]
    simp
  have hslide : slideTangential 199 0 5 1 = (199, 1) := by
    unfold slideTangential
    rw [htan]
    norm_num
  have hd1 : dist0 (199 + 5) (0 + 1) > 200 := by
    unfold dist0
    rw [show ((199:ℝ) + 5) = 204 by norm_num, show ((0:ℝ) + 1) = 1 by norm_num]
    rw [gt_iff_lt, Real.lt_sqrt (by norm_num)]
    norm_num
  have hd2 : dist0 199 0 ≥ 200 - 3 := by
    unfold dist0
    rw [show ((199:ℝ) ^ 2 + 0 ^ 2) = 199 ^ 2 by norm_num,
      Real.sqrt_sq (by norm_num : (0:ℝ) ≤ 199)]
    norm_num
  have hd3 : ¬ dist0 199 1 > 200 := by
    unfold dist0
    rw [not_lt]
    rw [show ((199:ℝ) ^ 2 + 1 ^ 2) = 39602 by norm_num]
    rw [Real.sqrt_le_left (by norm_num)]
    norm_num
  constructor
  · unfold resolveDrag
    rw [if_pos hd1, if_pos hd2, hslide, if_neg hd3]
  · have hlt : dist0 199 1 < 200 := by
      unfold dist0
      rw [show ((199:ℝ) ^ 2 + 1 ^ 2) = 39602 by norm_num,
        Real.sqrt_lt' (by norm_num)]
      norm_num
    intro hc
    rw [hc] at hlt
    exact lt_irrefl _ hlt

/-- C4 (amended): whenever the attempted position is beyond the circle and
the current position is strictly inside the `R - 3` band, `resolveDrag`
clamps radially: the result is the positive rescaling of the attempted
position onto the radius-`R` circle — same angle, distance exactly `R` —
and `part_003`'s `handleDrag` does the same unconditionally; the slide
branch guarantees only distance `≤ R` (see the counterexample). -/
theorem resolveDrag_clamp_amended (curX curY dX dY R : ℝ) (hR : 0 ≤ R)
    (hout : dist0 (curX + dX) (curY + dY) > R) :
    (resolveDragP3 curX curY dX dY R =
        (R * (curX + dX) / dist0 (curX + dX) (curY + dY),
         R * (curY + dY) / dist0 (curX + dX) (curY + dY)) ∧
      dist0 (resolveDragP3 curX curY dX dY R).1
        (resolveDragP3 curX curY dX dY R).2 = R) ∧
    (dist0 curX curY < R - 3 →
      resolveDrag curX curY dX dY R = resolveDragP3 curX curY dX dY R) ∧
    dist0 (resolveDrag curX curY dX dY R).1
      (resolveDrag curX curY dX dY R).2 ≤ R := by
  have hne : dist0 (curX + dX) (curY + dY) ≠ 0 := by
    intro hc
    rw [hc] at hout
    exact absurd (lt_of_le_of_lt hR hout) (lt_irrefl 0)
  have hp3 : resolveDragP3 curX curY dX dY R =
      clampToCircle (curX + dX) (curY + dY) R := by
    unfold resolveDragP3
    rw [if_pos hout]
  refine ⟨⟨?_, ?_⟩, ?_, resolveDrag_dist_le curX curY dX dY R hR⟩
  · rw [hp3]
    exact clampToCircle_eq_scale _ _ _ hne
  · rw [hp3]
    exact clampToCircle_dist _ _ _ hR
  · intro hin
    unfold resolveDrag
    rw [if_pos hout, if_neg (by push_neg; linarith), hp3]

/-- Witness for C4 at the spec's scenario 2: `R = 200`, current position at
the origin, drag delta `(250, 0)` — the attempted position has distance
`250 > 200` and resolves to `(200, 0)`, exactly on the circle at the same
angle. -/
theorem resolveDrag_clamp_amended_witness :
    (0:ℝ) ≤ 200 ∧ dist0 (0 + 250) (0 + 0) > 200 ∧ dist0 0 0 < 200 - 3 ∧
    resolveDragP3 0 0 250 0 200 =
      (200 * (0 + 250) / dist0 (0 + 250) (0 + 0),
       200 * (0 + 0) / dist0 (0 + 250) (0 + 0)) ∧
    dist0 (resolveDragP3 0 0 250 0 200).1 (resolveDragP3 0 0 250 0 200).2 = 200 ∧
    resolveDrag 0 0 250 0 200 = resolveDragP3 0 0 250 0 200 := by
  have h250 : dist0 (0 + 250) (0 + 0) > 200 := by
    unfold dist0
    rw [show ((0:ℝ) + 250) = 250 by norm_num, show ((0:ℝ) + 0) = 0 by norm_num]
    rw [gt_iff_lt, Real.lt_sqrt (by norm_num)]
    norm_num
  have h0 : dist0 0 0 < 200 - 3 := by
    rw [dist0_zero]
    norm_num
  have h := resolveDrag_clamp_amended 0 0 250 0 200 (by norm_num) h250
  exact ⟨by norm_num, h250, h0, h.1.1, h.1.2, h.2.1 h0⟩

/-- C5 counterexample: the tangential decomposition is NOT applied whenever
the attempted position exceeds `R` — with the current position at the
origin (far inside the band) and delta `(250, 0)`, the code radially clamps
to `(200, 0)` while the spec's tangential-only response would leave the
position at `(0, 0)`. -/
theorem resolveDrag_slide_counterexample :
    resolveDrag 0 0 250 0 200 = (200, 0) ∧
    slideSpecResponse 0 0 250 0 200 = (0, 0) ∧
    ((200:ℝ), (0:ℝ)) ≠ ((0:ℝ), (0:ℝ)) := by
  have h250 : dist0 (0 + 250) (0 + 0) > 200 := by
    unfold dist0
    rw [show ((0:ℝ) + 250) = 250 by norm_num, show ((0:ℝ) + 0) = 0 by norm_num]
    rw [gt_iff_lt, Real.lt_sqrt (by norm_num)]
    norm_num
  have hzero : atan2 0 0 = 0 := Complex.arg_zero
  have htan : tangentAt 0 0 = (0, 1) := by
    unfold tangentAt
    rw [hzero]
    simp
  have hslide : slideTangential 0 0 250 0 = (0, 0) := by
    unfold slideTangential
    rw [htan]
    norm_num
  have harg250 : atan2 (0 + 0) (0 + 250) = 0 := by
    unfold atan2
    have : ((⟨0 + 250, 0 + 0⟩ : ℂ)) = ((250 : ℝ) : ℂ) := by
      apply Complex.ext <;> simp
    rw [this]
    exact Complex.arg_ofReal_of_nonneg (by norm_num)
  refine ⟨?_, ?_, by norm_num⟩
  · unfold resolveDrag
    rw [if_pos h250, if_neg (by rw [dist0_zero]; norm_num)]
    unfold clampToCircle
    rw [harg250]
    norm_num
  · unfold slideSpecResponse
    rw [hslide, if_neg (by rw [dist0_zero]; norm_num)]

/-- The unit tangent is orthogonal to the position vector. -/
theorem tangent_orth (x y : ℝ) :
    (tangentAt x y).1 * x + (tangentAt x y).2 * y = 0 := by
  unfold tangentAt atan2
  by_cases hz : (⟨x, y⟩ : ℂ) = 0
  · have hx : x = 0 := by
      have := congrArg Complex.re hz
      simpa using this
    have hy : y = 0 := by
      have := congrArg Complex.im hz
      simpa using this
    rw [hx, hy]
    ring
  · rw [Complex.cos_arg hz, Complex.sin_arg]
    have habs : Complex.abs ⟨x, y⟩ ≠ 0 := by
      simpa using hz
    have hre : (⟨x, y⟩ : ℂ).re = x := rfl
    have him : (⟨x, y⟩ : ℂ).im = y := rfl
    rw [hre, him]
    field_simp
    ring

/-- C5 (amended): the tangential decomposition applies exactly in the
border band: when the attempted position is beyond the circle AND the
current distance is at least `R - 3`, `resolveDrag` coincides with the
spec's slide response (tangential-only move, re-clamped), the applied
pre-clamp displacement is orthogonal to the current radial direction, and
the result stays inside the circle; outside the band the code clamps
radially instead. -/
theorem resolveDrag_slide_amended (curX curY dX dY R : ℝ) (hR : 0 ≤ R)
    (hout : dist0 (curX + dX) (curY + dY) > R)
    (hband : dist0 curX curY ≥ R - 3) :
    resolveDrag curX curY dX dY R = slideSpecResponse curX curY dX dY R ∧
    ((slideTangential curX curY dX dY).1 - curX) * curX +
      ((slideTangential curX curY dX dY).2 - curY) * curY = 0 ∧
    dist0 (resolveDrag curX curY dX dY R).1
      (resolveDrag curX curY dX dY R).2 ≤ R := by
  refine ⟨?_, ?_, resolveDrag_dist_le curX curY dX dY R hR⟩
  · unfold resolveDrag slideSpecResponse
    rw [if_pos hout, if_pos hband]
  · have horth := tangent_orth curX curY
    unfold slideTangential
    calc ((curX + (dX * (tangentAt curX curY).1 + dY * (tangentAt curX curY).2) *
              (tangentAt curX curY).1, curY +
            (dX * (tangentAt curX curY).1 + dY * (tangentAt curX curY).2) *
              (tangentAt curX curY).2).1 - curX) * curX +
          (((curX + (dX * (tangentAt curX curY).1 + dY * (tangentAt curX curY).2) *
              (tangentAt curX curY).1, curY +
            (dX * (tangentAt curX curY).1 + dY * (tangentAt curX curY).2) *
              (tangentAt curX curY).2).2 - curY) * curY)
        = (dX * (tangentAt curX curY).1 + dY * (tangentAt curX curY).2) *
            ((tangentAt curX curY).1 * curX + (tangentAt curX curY).2 * curY) := by
          ring
      _ = 0 := by rw [horth]; ring

/-- Witness for C5 at `R = 200`, current `(199, 0)` (in the band), delta
`(5, 1)`. -/
theorem resolveDrag_slide_amended_witness :
    (0:ℝ) ≤ 200 ∧ dist0 (199 + 5) (0 + 1) > 200 ∧ dist0 199 0 ≥ 200 - 3 ∧
    (resolveDrag 199 0 5 1 200 = slideSpecResponse 199 0 5 1 200 ∧
      ((slideTangential 199 0 5 1).1 - 199) * 199 +
        ((slideTangential 199 0 5 1).2 - 0) * 0 = 0 ∧
      dist0 (resolveDrag 199 0 5 1 200).1 (resolveDrag 199 0 5 1 200).2 ≤ 200) := by
  have hd1 : dist0 (199 + 5) (0 + 1) > 200 := by
    unfold dist0
    rw [show ((199:ℝ) + 5) = 204 by norm_num, show ((0:ℝ) + 1) = 1 by norm_num]
    rw [gt_iff_lt, Real.lt_sqrt (by norm_num)]
    norm_num
  have hd2 : dist0 199 0 ≥ 200 - 3 := by
    unfold dist0
    rw [show ((199:ℝ) ^ 2 + 0 ^ 2) = 199 ^ 2 by norm_num,
      Real.sqrt_sq (by norm_num : (0:ℝ) ≤ 199)]
    norm_num
  exact ⟨by norm_num, hd1, hd2,
    resolveDrag_slide_amended 199 0 5 1 200 (by norm_num) hd1 hd2⟩

/-! ### Position-state invariant (C6)

The toroidal variant (`part_002`) mutates the ship position through
`handleDrag` (lines 422-467), the momentum frames of `handleDragEnd`
(lines 499-516), the mount-time load (lines 288-304) and
`resetShipPosition` (lines 537-543); every write goes through `wrap` into
`[0, worldWidth) × [0, worldHeight)`.  The bounded variant
(GalaxyMap.tsx) mutates the map offset through `handleDrag`,
`validatePosition`, the guarded load (lines 187-210), `handleDragEnd`
(no position change) and `resetShipPosition`; every write stays inside the
radius-`R` circle. -/

/-- The position-mutating operations of the toroidal variant. -/
inductive TorOp where
  | drag (scale dX dY : ℚ)
  | momentum (vx vy : ℚ)
  | load (sx sy : ℚ)
  | reset

/-- One toroidal state transition.  `drag`: the early-return guard
`scale === 0` keeps the position, otherwise both coordinates are wrapped
after adding `-delta / scale`; `momentum`: one `applyMomentum` frame with
`deltaTime = 0.016`; `load`: the mount effect — the JS fallback
`pos.x || width/2` substitutes the centre for a zero (falsy) coordinate —
then wraps; `reset`: the world centre. -/
def torStep (p : Pt) : TorOp → Pt
  | .drag scale dX dY =>
      if scale = 0 then p
      else ⟨wrap (p.x + -dX / scale) 0 worldWidth,
            wrap (p.y + -dY / scale) 0 worldHeight⟩
  | .momentum vx vy =>
      ⟨wrap (p.x + vx * (16 / 1000)) 0 worldWidth,
       wrap (p.y + vy * (16 / 1000)) 0 worldHeight⟩
  | .load sx sy =>
      ⟨wrap (if sx = 0 then worldWidth / 2 else sx) 0 worldWidth,
       wrap (if sy = 0 then worldHeight / 2 else sy) 0 worldHeight⟩
  | .reset => ⟨worldWidth / 2, worldHeight / 2⟩

/-- The position-mutating operations of the bounded-circular variant. -/
inductive MapOp where
  | drag (dX dY : ℝ)
  | validate
  | load (saved : Option (ℝ × ℝ))
  | dragEnd
  | reset

/-- One bounded-variant transition: `drag` is `handleDrag`; `validate` is
the `validatePosition` subscriber; `load` applies a successfully parsed
saved position only when it passes the `distance <= bounds.radius` check
(GalaxyMap.tsx lines 198-203), otherwise the motion values keep their
current value; `dragEnd` only persists; `reset` animates to the origin. -/
noncomputable def mapStep (R : ℝ) (p : ℝ × ℝ) : MapOp → ℝ × ℝ
  | .drag dX dY => resolveDrag p.1 p.2 dX dY R
  | .validate => validatePosition p.1 p.2 R
  | .load saved =>
      match saved with
      | some q => if dist0 q.1 q.2 ≤ R then q else p
      | none => p
  | .dragEnd => p
  | .reset => (0, 0)

/-- C6: the state invariant holds across every operation: in the toroidal
variant each transition puts (and keeps) the ship position in
`[0, worldWidth) × [0, worldHeight)`; in the bounded-circular variant each
transition keeps the map offset within distance `R` of the origin. -/
theorem position_invariant :
    (∀ (p : Pt) (op : TorOp),
      p.x ∈ Set.Ico 0 worldWidth → p.y ∈ Set.Ico 0 worldHeight →
      (torStep p op).x ∈ Set.Ico 0 worldWidth ∧
        (torStep p op).y ∈ Set.Ico 0 worldHeight) ∧
    ∀ (R : ℝ) (p : ℝ × ℝ) (op : MapOp), 0 ≤ R → dist0 p.1 p.2 ≤ R →
      dist0 (mapStep R p op).1 (mapStep R p op).2 ≤ R := by
  have hw : (0:ℚ) < worldWidth := by norm_num [worldWidth]
  have hh : (0:ℚ) < worldHeight := by norm_num [worldHeight]
  constructor
  · intro p op hx hy
    cases op with
    | drag scale dX dY =>
      by_cases hs : scale = 0
      · simp only [torStep, if_pos hs]
        exact ⟨hx, hy⟩
      · simp only [torStep, if_neg hs]
        exact ⟨wrap_mem _ _ _ hw, wrap_mem _ _ _ hh⟩
    | momentum vx vy => exact ⟨wrap_mem _ _ _ hw, wrap_mem _ _ _ hh⟩
    | load sx sy => exact ⟨wrap_mem _ _ _ hw, wrap_mem _ _ _ hh⟩
    | reset =>
      constructor <;> rw [Set.mem_Ico] <;>
        norm_num [torStep, worldWidth, worldHeight]
  · intro R p op hR hp
    cases op with
    | drag dX dY => exact resolveDrag_dist_le p.1 p.2 dX dY R hR
    | validate => exact validatePosition_dist_le p.1 p.2 R hR
    | load saved =>
      cases saved with
      | none => exact hp
      | some q =>
        by_cases hq : dist0 q.1 q.2 ≤ R
        · simpa [mapStep, if_pos hq] using hq
        · simpa [mapStep, if_neg hq] using hp
    | dragEnd => exact hp
    | reset => simpa [mapStep, dist0_zero] using hR

/-- Witness for C6: a toroidal drag from the centre, and a bounded reset at
`R = 200` from the saved position `(100, 0)`. -/
theorem position_invariant_witness :
    ((2500 : ℚ) ∈ Set.Ico 0 worldWidth ∧ (2500 : ℚ) ∈ Set.Ico 0 worldHeight ∧
      (torStep ⟨2500, 2500⟩ (.drag 1 100 0)).x ∈ Set.Ico 0 worldWidth ∧
      (torStep ⟨2500, 2500⟩ (.drag 1 100 0)).y ∈ Set.Ico 0 worldHeight) ∧
    ((0:ℝ) ≤ 200 ∧ dist0 (100, (0:ℝ)).1 (100, (0:ℝ)).2 ≤ 200 ∧
      dist0 (mapStep 200 (100, 0) .reset).1 (mapStep 200 (100, 0) .reset).2 ≤ 200) := by
  have hmem : (2500 : ℚ) ∈ Set.Ico 0 worldWidth := by
    rw [Set.mem_Ico]
    norm_num [worldWidth]
  have hmem2 : (2500 : ℚ) ∈ Set.Ico 0 worldHeight := by
    rw [Set.mem_Ico]
    norm_num [worldHeight]
  have hd : dist0 (100, (0:ℝ)).1 (100, (0:ℝ)).2 ≤ 200 := by
    show dist0 100 0 ≤ 200
    unfold dist0
    rw [Real.sqrt_le_left (by norm_num)]
    norm_num
  have ht := (position_invariant.1 ⟨2500, 2500⟩ (.drag 1 100 0) hmem hmem2)
  have hb := position_invariant.2 200 (100, 0) .reset (by norm_num) hd
  exact ⟨⟨hmem, hmem2, ht.1, ht.2⟩, ⟨by norm_num, hd, hb⟩⟩

/-! ### Persisted-position loading (C7)

The `shipPosition` initializer of GalaxyMap.tsx lines 135-138 (identical in
`part_003` lines 199-202):

    const saved = localStorage.getItem("xenopets-player-position");
    return saved ? JSON.parse(saved) : { x: 50, y: 50 };

`localStorage.getItem` is modelled as an `Option String`; `JSON.parse` is a
platform primitive modelled as an abstract fallible parser, and a thrown
`SyntaxError` as an `Except.error` that this initializer does NOT catch —
there is no `try`/`catch` around the call. -/

/-- The `shipPosition` initializer: on a present raw string the result is
whatever `JSON.parse` produces — including a propagated exception — and
only an absent value falls back to the centre `(50, 50)`. -/
def loadShipPosition (parse : String → Except String Pt)
    (saved : Option String) : Except String Pt :=
  match saved with
  | some s => parse s
  | none => Except.ok ⟨50, 50⟩

/-- C7 (code bug): for any stored string on which `JSON.parse` throws —
such as the non-JSON text `{x:"abc"}` — the initializer propagates the
exception instead of catching it and falling back to the world-centre
default, contradicting the spec's error-handling contract. -/
theorem loadShipPosition_propagates (parse : String → Except String Pt)
    (s e : String) (h : parse s = Except.error e) :
    loadShipPosition parse (some s) = Except.error e ∧
    loadShipPosition parse (some s) ≠ Except.ok ⟨50, 50⟩ := by
  constructor
  · simpa [loadShipPosition] using h
  · simp [loadShipPosition, h]

/-- Witness for C7 with a parser that throws on the malformed persisted
text (braces and quotes written as character escapes). -/
theorem loadShipPosition_propagates_witness :
    (fun _ : String => (Except.error "SyntaxError" : Except String Pt))
        "\x7bx:\x22abc\x22\x7d" = Except.error "SyntaxError" ∧
    (loadShipPosition (fun _ => Except.error "SyntaxError")
        (some "\x7bx:\x22abc\x22\x7d") = Except.error "SyntaxError" ∧
      loadShipPosition (fun _ => Except.error "SyntaxError")
        (some "\x7bx:\x22abc\x22\x7d") ≠ Except.ok ⟨50, 50⟩) :=
  ⟨rfl, loadShipPosition_propagates _ _ _ rfl⟩

/-! ### Click gating (C8)

`part_001` (the `WorldScreen` variant) gates a POI click on both conditions
(lines 283-287):

    const handlePointClick = (point) => {
      if (!isDragging && isPointInRange(point)) setSelectedPoint(point);
    };

with `isPointInRange` from lines 151-176 (`INTERACTION_DISTANCE = 80`,
`MAP_SIZE = 2000`, distance `Infinity` when the container is unmeasured).
In GalaxyMap.tsx the range/drag gating lives in the `MapPoint` child
component (imported from `./MapPoint`), which is not part of the sources;
it is modelled from the spec below, composed with `handlePointClick`
(lines 382-387), which looks the id up in `GALAXY_POINTS` and invokes
`onPointClick(pointId, point)`. -/

/-- `INTERACTION_DISTANCE` of `part_001`. -/
def INTERACTION_DISTANCE : ℚ := 80

/-- `MAP_SIZE` of `part_001`. -/
def MAP_SIZE : ℚ := 2000

/-- Squared version of `calculateDistance` of `part_001` (lines 151-168):
ship at the container centre, point at `(p/100)·MAP_SIZE + mapPosition`;
`none` models the `Infinity` returned when no container rect exists. -/
def calculateDistance2 (rect : Option (ℚ × ℚ)) (mapPos p : Pt) : Option ℚ :=
  rect.map (fun wh =>
    (wh.1 / 2 - (p.x / 100 * MAP_SIZE + mapPos.x)) ^ 2 +
    (wh.2 / 2 - (p.y / 100 * MAP_SIZE + mapPos.y)) ^ 2)

/-- `isPointInRange` of `part_001` (lines 171-176):
`calculateDistance(point) <= INTERACTION_DISTANCE`, transcribed on squared
distances (`Infinity` is never `≤ 80`). -/
def isPointInRange (rect : Option (ℚ × ℚ)) (mapPos p : Pt) : Bool :=
  match calculateDistance2 rect mapPos p with
  | none => false
  | some d2 => decide (d2 ≤ INTERACTION_DISTANCE ^ 2)

/-- `handlePointClick` of `part_001`: `some point` models
`setSelectedPoint(point)`, `none` the silent no-op. -/
def handlePointClickWS (isDragging : Bool) (rect : Option (ℚ × ℚ))
    (mapPos p : Pt) : Option Pt :=
  if !isDragging && isPointInRange rect mapPos p then some p else none

/-- Modelled from the spec: the `MapPoint` component (imported from
`./MapPoint`, missing from the sources) forwards a click to its `onClick`
callback only when the POI is in interaction range and no drag gesture is
currently in progress (spec §4.3). -/
def mapPointDeliversClick (isDragging inRange : Bool) : Bool :=
  !isDragging && inRange

/-- `handlePointClick` of GalaxyMap.tsx (lines 382-387): look the id up in
the POI list and invoke `onPointClick(pointId, point)` when found. -/
def handlePointClickGM (points : List MapPointData) (pid : String) :
    Option (String × MapPointData) :=
  (points.find? (fun p => p.id == pid)).map (fun p => (pid, p))

/-- The full click path of the GalaxyMap.tsx variant: the (spec-modelled)
`MapPoint` gate in front of `handlePointClickGM`. -/
def clickPipeline (isDragging inRange : Bool) (points : List MapPointData)
    (pid : String) : Option (String × MapPointData) :=
  if mapPointDeliversClick isDragging inRange then
    handlePointClickGM points pid
  else none

/-- C8: a click invokes the outward callback only when the POI is in range
AND no drag is in progress; in particular any click during an active drag
is a silent no-op (`none`), never an error, in both the GalaxyMap.tsx
pipeline and the `part_001` handler. -/
theorem click_gating (isDragging inRange : Bool) (points : List MapPointData)
    (pid : String) (rect : Option (ℚ × ℚ)) (mapPos p : Pt) :
    (clickPipeline isDragging inRange points pid ≠ none ↔
      isDragging = false ∧ inRange = true ∧ ∃ q ∈ points, q.id = pid) ∧
    (isDragging = true → clickPipeline isDragging inRange points pid = none) ∧
    (handlePointClickWS isDragging rect mapPos p ≠ none ↔
      isDragging = false ∧ isPointInRange rect mapPos p = true) ∧
    (isDragging = true → handlePointClickWS isDragging rect mapPos p = none) := by
  refine ⟨?_, ?_, ?_, ?_⟩
  · unfold clickPipeline mapPointDeliversClick handlePointClickGM
    cases isDragging <;> cases inRange <;>
      simp [List.find?_eq_none, Option.map_eq_none']
  · intro h
    subst h
    rfl
  · unfold handlePointClickWS
    cases isDragging <;> cases hr : isPointInRange rect mapPos p <;> simp [hr]
  · intro h
    subst h
    rfl

/-- Witness for C8: a drag in progress suppresses a click on an in-range
POI (`terra-nova` in `GALAXY_POINTS`). -/
theorem click_gating_witness :
    clickPipeline true true GALAXY_POINTS "terra-nova" = none ∧
    handlePointClickWS true (some (800, 600)) ⟨0, 0⟩ ⟨40, 45⟩ = none :=
  ⟨(click_gating true true GALAXY_POINTS "terra-nova" (some (800, 600))
      ⟨0, 0⟩ ⟨40, 45⟩).2.1 rfl,
    (click_gating true true GALAXY_POINTS "terra-nova" (some (800, 600))
      ⟨0, 0⟩ ⟨40, 45⟩).2.2.2 rfl⟩

end Xenopets
